import Mathlib

/-!
Shallow embedding of the workflow patcher in
src/build_4i2v_segment_workflow.py.

The Python program loads a JSON document, patches a handful of node
fields driven by CLI parameters and a preset table, and writes the
result back out.  We embed the JSON data model as an inductive type of
values, dictionaries as association lists preserving Python dict
insertion-order semantics (assignment to an existing key keeps its
position, a fresh key is appended at the end, matching setdefault), and
each mutating function as a pure function returning Option, where none
models a raised Python exception (ValueError, KeyError, IndexError,
TypeError, AttributeError) which aborts the run before any output file
is written.

Modelling conventions:
- JSON numbers (Python int and float) are both embedded as rationals;
  the program only copies numeric constants around, it never computes
  with them, so this is faithful for every claim considered here.
- Node ids are rationals for the same reason; the constants are
  integers.
- Positional writes such as widgets[0] = x on a value that is neither
  an ordered sequence nor absent are modelled as failures.  That is
  faithful for strings, numbers, booleans and null (Python indexing
  raises TypeError) and for the empty mapping (the extend/append calls
  raise); a nonempty mapping is the one divergence: Python dict item
  assignment inserts integer keys and succeeds there, while this model
  fails.  Every theorem below whose conclusion concerns a positionally
  addressed widget list therefore carries a hypothesis confining the
  prior shape to absent-or-sequence, where model and source agree
  exactly.
-/

/-- JSON-like values: the data model of the workflow document. -/
inductive JVal : Type where
  | null : JVal
  | bool (b : Bool) : JVal
  | num (q : ℚ) : JVal
  | str (s : String) : JVal
  | arr (xs : List JVal) : JVal
  | obj (kvs : List (String × JVal)) : JVal

/-- A node of the workflow graph: a JSON object, i.e. an ordered
association list of string keys to values (Python dict). -/
abbrev Node : Type := List (String × JVal)

/-- Dictionary lookup: first binding of the key, if any
(Python d.get(k)). -/
def getKey : List (String × JVal) → String → Option JVal
  | [], _ => none
  | (k2, v) :: rest, k => if k2 = k then some v else getKey rest k

/-- Dictionary assignment d[k] = v: overwrite in place if the key is
present (keeping its position), else append the new binding at the end,
exactly as a Python dict does. -/
def setKey : List (String × JVal) → String → JVal → List (String × JVal)
  | [], k, v => [(k, v)]
  | (k2, v2) :: rest, k, v =>
      if k2 = k then (k, v) :: rest else (k2, v2) :: setKey rest k v

/-- Python list index assignment xs[i] = v: fails (IndexError) when the
index is out of bounds. -/
def listSetIdx (xs : List JVal) (i : Nat) (v : JVal) : Option (List JVal) :=
  if i < xs.length then some (xs.set i v) else none

/-- Equality of a looked-up JSON value with a number is decidable
without generic equality on values: Python compares node.get with an
integer id, which is true exactly when the value is that number. -/
instance decSomeNum (v : Option JVal) (q : ℚ) : Decidable (v = some (JVal.num q)) :=
  match v with
  | none => isFalse (by simp)
  | some .null => isFalse (by simp)
  | some (.bool b) => isFalse (by simp)
  | some (.num q2) => if h : q2 = q then isTrue (by rw [h]) else isFalse (by simp [h])
  | some (.str s) => isFalse (by simp)
  | some (.arr xs) => isFalse (by simp)
  | some (.obj kvs) => isFalse (by simp)

-- Node ids in the base graph (constants from the source).
def LOAD_IMAGE_START_IDS : List ℚ := [142, 135]
def LOAD_IMAGE_END_IDS : List ℚ := [680, 683]
def MOTION_VIDEO_NODE_ID : ℚ := 568
def CONTROLNET_APPLY_NODE_ID : ℚ := 125
def MOTION_SCALE_NODE_ID : ℚ := 256
def VIDEO_PREVIEW_NODE_ID : ℚ := 53
def VIDEO_FINAL_NODE_ID : ℚ := 205
def VIDEO_INTERPOLATED_NODE_ID : ℚ := 219
def VIDEO_UPSCALED_MODEL_NODE_ID : ℚ := 272

/-- A motion preset record, as in the MOTION_PRESETS table. -/
structure Preset : Type where
  video : String
  controlnet_strength : ℚ
  controlnet_end : ℚ
  motion_scale : ℚ

/-- The MOTION_PRESETS table of the source, as a lookup function;
none models the KeyError raised on an unknown preset name. -/
def MOTION_PRESETS (name : String) : Option Preset :=
  if name = "zoom" then
    some ⟨"motions/zoom.mp4", 0.55, 0.45, 1.15⟩
  else if name = "rotate_left" then
    some ⟨"motions/rotate_left.mp4", 0.60, 0.55, 1.12⟩
  else if name = "rotate_right" then
    some ⟨"motions/rotate_right.mp4", 0.60, 0.55, 1.12⟩
  else if name = "up" then
    some ⟨"motions/tilt_up.mp4", 0.60, 0.55, 1.10⟩
  else if name = "down" then
    some ⟨"motions/tilt_down.mp4", 0.60, 0.55, 1.10⟩
  else none

/-- find_node: linear scan returning the first node whose id field
equals the target; none models the ValueError raised when no node
matches. -/
def find_node : List Node → ℚ → Option Node
  | [], _ => none
  | node :: rest, node_id =>
      if getKey node "id" = some (.num node_id) then some node
      else find_node rest node_id

/-- Apply a fallible mutation to the first node whose id field equals
the target, leaving every other node untouched; none when no node
matches (find_node raises) or when the mutation itself fails.  This is
the pure rendering of the Python pattern of calling find_node and then
mutating the returned node in place inside the shared list. -/
def updateNodeO : List Node → ℚ → (Node → Option Node) → Option (List Node)
  | [], _, _ => none
  | node :: rest, node_id, f =>
      if getKey node "id" = some (.num node_id) then
        (f node).map (fun node2 => node2 :: rest)
      else
        (updateNodeO rest node_id f).map (fun rest2 => node :: rest2)

/-- Python node.setdefault of a positionally-addressed widget list:
the given fresh default when the field is absent, the existing list
when it is one.  Any other shape is modelled as a failure: faithful
for scalars (Python indexing raises TypeError) and for the empty
mapping (the extend/append calls raise), while a nonempty mapping —
where Python item assignment would insert integer keys and succeed —
is outside the modelled domain; every theorem about positional widgets
hypothesizes an absent-or-sequence prior. -/
def getArrOr (dflt : List JVal) (v : Option JVal) : Option (List JVal) :=
  match v with
  | none => some dflt
  | some (.arr xs) => some xs
  | some _ => none

/-- Python node.setdefault of a key-addressed widget mapping with an
empty-dict default; failure models the TypeError raised further down by
keyed writes on non-mapping shapes. -/
def getObjOrEmpty (v : Option JVal) : Option (List (String × JVal)) :=
  match v with
  | none => some []
  | some (.obj kvs) => some kvs
  | some _ => none

/-- The per-node action of set_load_image: setdefault widgets_values
to a fresh two-element list, extend an empty existing list with the two
defaults, assign index 0 to the path, and append the literal "image"
when exactly one element remains. -/
def apply_load_image_node (image_path : String) (node : Node) : Option Node := do
  let widgets ← getArrOr [JVal.str "", JVal.str "image"] (getKey node "widgets_values")
  let widgets := if widgets.isEmpty then widgets ++ [JVal.str "", JVal.str "image"] else widgets
  let widgets ← listSetIdx widgets 0 (.str image_path)
  let widgets := if widgets.length = 1 then widgets ++ [JVal.str "image"] else widgets
  some (setKey node "widgets_values" (.arr widgets))

/-- set_load_image: ensure the image-loader node's widgets_values holds
the given path at position 0. -/
def set_load_image (nodes : List Node) (node_id : ℚ) (image_path : String) :
    Option (List Node) :=
  updateNodeO nodes node_id (apply_load_image_node image_path)

/-- Resolution of the motion video path: the override wins when it is
provided and non-empty (Python truthiness of an optional string), else
the preset's video field. -/
def resolve_video (override_video : Option String) (preset : Preset) : String :=
  match override_video with
  | some s => if s = "" then preset.video else s
  | none => preset.video

/-- The params sub-step on a videopreview mapping: setdefault its
params sub-mapping (a fresh empty dict appended at the end when
absent, mutated in place when present) and set its filename key to the
resolved video value; a present non-mapping params raises
(TypeError). -/
def videopreview_params (video_value : String) (vp : List (String × JVal)) :
    Option (List (String × JVal)) :=
  match getKey vp "params" with
  | none =>
      some (vp ++ [("params", JVal.obj [("filename", JVal.str video_value)])])
  | some (.obj ps) =>
      some (setKey vp "params" (.obj (setKey ps "filename" (.str video_value))))
  | some _ => none

/-- The videopreview sub-step of the motion-video patch: when the
videopreview entry of the widget mapping is itself a mapping, run the
params sub-step on it; any other videopreview shape is left alone (the
isinstance guard in the source). -/
def apply_videopreview (video_value : String) (widgets : List (String × JVal)) :
    Option (List (String × JVal)) :=
  match getKey widgets "videopreview" with
  | some (.obj vp) =>
      (videopreview_params video_value vp).map
        (fun vp2 => setKey widgets "videopreview" (.obj vp2))
  | _ => some widgets

/-- The per-node action of set_motion_settings on the motion-video
node: treat widgets_values as a mapping (initialized to empty when
absent), set key video, then run the videopreview sub-step. -/
def apply_video_node (video_value : String) (node : Node) : Option Node := do
  let widgets ← getObjOrEmpty (getKey node "widgets_values")
  let widgets := setKey widgets "video" (.str video_value)
  let widgets ← apply_videopreview video_value widgets
  some (setKey node "widgets_values" (.obj widgets))

/-- The per-node action of set_motion_settings on the controlnet-apply
node: setdefault the positional widget list, assign index 0 to the
preset strength (IndexError on an empty present list), pad with zeros
to length 3, assign index 2 to the preset end value. -/
def apply_controlnet_node (preset : Preset) (node : Node) : Option Node := do
  let cw ← getArrOr [JVal.num 0.45, JVal.num 0, JVal.num 0.35] (getKey node "widgets_values")
  let cw ← listSetIdx cw 0 (.num preset.controlnet_strength)
  let cw := cw ++ List.replicate (3 - cw.length) (JVal.num 0)
  let cw ← listSetIdx cw 2 (.num preset.controlnet_end)
  some (setKey node "widgets_values" (.arr cw))

/-- The per-node action of set_motion_settings on the motion-scale
node: setdefault the positional widget list and assign index 0 to the
preset's motion scale. -/
def apply_motion_scale_node (preset : Preset) (node : Node) : Option Node := do
  let mw ← getArrOr [JVal.num 1.0] (getKey node "widgets_values")
  let mw ← listSetIdx mw 0 (.num preset.motion_scale)
  some (setKey node "widgets_values" (.arr mw))

/-- set_motion_settings: look up the preset (KeyError on an unknown
name, before any node is touched), then patch the motion-video,
controlnet-apply, and motion-scale nodes in that order. -/
def set_motion_settings (nodes : List Node) (motion : String)
    (override_video : Option String) : Option (List Node) := do
  let preset ← MOTION_PRESETS motion
  let video_value := resolve_video override_video preset
  let nodes ← updateNodeO nodes MOTION_VIDEO_NODE_ID (apply_video_node video_value)
  let nodes ← updateNodeO nodes CONTROLNET_APPLY_NODE_ID (apply_controlnet_node preset)
  updateNodeO nodes MOTION_SCALE_NODE_ID (apply_motion_scale_node preset)

/-- Setting the mode field of a node (always succeeds). -/
def set_mode (m : ℚ) (node : Node) : Option Node :=
  some (setKey node "mode" (.num m))

/-- set_quality: set the mode field on the four output-related nodes
according to the fixed table: sample enables preview (0) and bypasses
final (2); anything else (the parser only admits full) bypasses preview
and enables final; interpolated and upscaled are bypassed in both
branches.  The Python code performs all four lookups before the first
assignment; as every branch aborts the whole run on a missing node and
the four ids are distinct, sequential update is observationally the
same. -/
def set_quality (nodes : List Node) (quality : String) : Option (List Node) := do
  let preview_mode : ℚ := if quality = "sample" then 0 else 2
  let final_mode : ℚ := if quality = "sample" then 2 else 0
  let nodes ← updateNodeO nodes VIDEO_PREVIEW_NODE_ID (set_mode preview_mode)
  let nodes ← updateNodeO nodes VIDEO_FINAL_NODE_ID (set_mode final_mode)
  let nodes ← updateNodeO nodes VIDEO_INTERPOLATED_NODE_ID (set_mode 2)
  updateNodeO nodes VIDEO_UPSCALED_MODEL_NODE_ID (set_mode 2)

/-- The templated output-path string computed by the source from the
motion and quality names (the date placeholder is passed through
verbatim). -/
def output_pfx_string (motion quality : String) : String :=
  "%date:yyyy-MM-dd%/" ++ quality ++ "/" ++ (motion ++ "_" ++ quality) ++ "/AD"

/-- The per-node action of the output-path setter (the source function
whose name joins set_output with the pre/fix word; shortened here to
pfx for hygiene): when widgets_values is a mapping, set its
filename-path key to the templated string; otherwise leave the node
untouched.  In Python the absent case mutates a fresh temporary dict,
so the node is also untouched then. -/
def apply_pfx_node (motion quality : String) (node : Node) : Option Node :=
  match getKey node "widgets_values" with
  | some (.obj kvs) =>
      some (setKey node "widgets_values"
        (.obj (setKey kvs "filename_prefix" (.str (output_pfx_string motion quality)))))
  | _ => some node

/-- The output-prefix setter applied to the preview and final nodes
(failing only when one of the two nodes is missing). -/
def set_output_pfx (nodes : List Node) (motion quality : String) :
    Option (List Node) := do
  let nodes ← updateNodeO nodes VIDEO_PREVIEW_NODE_ID (apply_pfx_node motion quality)
  updateNodeO nodes VIDEO_FINAL_NODE_ID (apply_pfx_node motion quality)

/-- A JSON value viewed as a node: must be an object (Python's
node.get calls raise on anything else). -/
def asNode : JVal → Option Node
  | .obj kvs => some kvs
  | _ => none

/-- All elements of a JSON array viewed as nodes; fails on the first
non-object. -/
def asNodeList : List JVal → Option (List Node)
  | [] => some []
  | x :: rest => do
      let n ← asNode x
      let ns ← asNodeList rest
      some (n :: ns)

/-- The nodes entry of the document viewed as a node list; the
embedding requires every element to be an object.  Python raises at
the first non-object a lookup scan reaches, but never touches elements
past every match, so this is stricter than the source on that corner;
no conclusion proved below depends on such documents. -/
def asNodes : JVal → Option (List Node)
  | .arr xs => asNodeList xs
  | _ => none

/-- build_workflow: the orchestration order of the source: start
images, end images, motion settings, quality, output-path strings; the
mutated node list is placed back under the nodes key of the document
(in Python the list is shared, so this is the identity on that entry). -/
def build_workflow (data : List (String × JVal)) (start_image end_image motion quality : String)
    (motion_video : Option String) : Option (List (String × JVal)) := do
  let nodesVal ← getKey data "nodes"
  let nodes ← asNodes nodesVal
  let nodes ← LOAD_IMAGE_START_IDS.foldlM (fun ns i => set_load_image ns i start_image) nodes
  let nodes ← LOAD_IMAGE_END_IDS.foldlM (fun ns i => set_load_image ns i end_image) nodes
  let nodes ← set_motion_settings nodes motion motion_video
  let nodes ← set_quality nodes quality
  let nodes ← set_output_pfx nodes motion quality
  some (setKey data "nodes" (.arr (nodes.map JVal.obj)))

/-- The mode field of the first node with the given id, if any. -/
def node_mode (nodes : List Node) (node_id : ℚ) : Option JVal :=
  (find_node nodes node_id).bind (fun n => getKey n "mode")

/-! ## Concrete documents used to evaluate the theorems on closed inputs -/

/-- A document fragment containing exactly the four output nodes. -/
def cq_nodes : List Node :=
  [[("id", JVal.num 53)], [("id", JVal.num 205)],
   [("id", JVal.num 219)], [("id", JVal.num 272)]]

/-- The quality setter's output on cq_nodes with quality sample. -/
def cq_out : List Node := (set_quality cq_nodes "sample").getD []

/-- A node with a three-element positional widget list (counterexample
input for the image-slot claim). -/
def c3_node : Node :=
  [("id", JVal.num 9), ("widgets_values", JVal.arr [.str "a", .str "b", .str "c"])]

/-- A node with a two-element positional widget list. -/
def c3b_node : Node :=
  [("id", JVal.num 11), ("widgets_values", JVal.arr [.str "a", .str "b"])]

/-- The image-slot setter's output on the two-element node. -/
def c3_out : List Node := (set_load_image [c3b_node] 11 "q.png").getD []

/-- A loader node without a widgets_values field. -/
def c4_node : Node := [("id", JVal.num 142)]

/-- The image-slot setter's output on the bare loader node. -/
def c4_out : List Node := (set_load_image [c4_node] 142 "start.png").getD []

/-- A controlnet-apply node with a three-element positional widget
list. -/
def cm125_node : Node :=
  [("id", JVal.num 125), ("widgets_values", JVal.arr [.num 0.5, .num 0, .num 0.3])]

/-- A document with the three motion-related nodes. -/
def cm_nodes : List Node := [[("id", JVal.num 568)], cm125_node, [("id", JVal.num 256)]]

/-- The motion settings setter's output on cm_nodes with preset zoom
and no override. -/
def cm_out : List Node := (set_motion_settings cm_nodes "zoom" none).getD []

/-- The three motion-related nodes with an empty present controlnet
widget list. -/
def c10_nodes : List Node :=
  [[("id", JVal.num 568)],
   [("id", JVal.num 125), ("widgets_values", JVal.arr [])],
   [("id", JVal.num 256)]]

/-- A motion-video node with a mapping-shaped widget payload holding a
videopreview mapping without params. -/
def c5_568 : Node :=
  [("id", JVal.num 568),
   ("widgets_values", JVal.obj
     [("video", JVal.str "old.mp4"),
      ("videopreview", JVal.obj [("paused", JVal.bool false)])])]

/-- The three motion-related nodes with the mapping-shaped motion-video
node. -/
def c5_nodes : List Node := [c5_568, [("id", JVal.num 125)], [("id", JVal.num 256)]]

/-- The motion settings setter's output on c5_nodes with preset up and
a non-empty override. -/
def c5_out : List Node := (set_motion_settings c5_nodes "up" (some "override.mp4")).getD []

/-- A preview node with mapping-shaped widgets. -/
def c8_53 : Node := [("id", JVal.num 53), ("widgets_values", JVal.obj [("fps", JVal.num 8)])]

/-- A final node without widgets. -/
def c8_205 : Node := [("id", JVal.num 205)]

/-- A document with the two output-path nodes. -/
def c8_nodes : List Node := [c8_53, c8_205]

/-- The output-path setter's output on c8_nodes for motion zoom and
quality full. -/
def c8_out : List Node := (set_output_pfx c8_nodes "zoom" "full").getD []

/-- A document fragment holding every node id the build touches. -/
def c9_nodes : List Node :=
  [[("id", JVal.num 142)], [("id", JVal.num 135)],
   [("id", JVal.num 680)], [("id", JVal.num 683)],
   [("id", JVal.num 568)], [("id", JVal.num 125)], [("id", JVal.num 256)],
   [("id", JVal.num 53)], [("id", JVal.num 205)],
   [("id", JVal.num 219)], [("id", JVal.num 272)]]

/-- A full document with extra top-level keys around the nodes entry. -/
def c9_doc : List (String × JVal) :=
  [("last_node_id", JVal.num 683), ("nodes", JVal.arr (c9_nodes.map JVal.obj)),
   ("links", JVal.arr [])]

/-- The whole build's output on c9_doc. -/
def c9_out : List (String × JVal) :=
  (build_workflow c9_doc "s.png" "e.png" "zoom" "sample" none).getD []

/-- A one-node document lacking node id 142. -/
def c6_nodes : List Node := [[("id", JVal.num 53)]]

/-- A full document whose nodes entry is c6_nodes. -/
def c6_doc : List (String × JVal) := [("nodes", JVal.arr (c6_nodes.map JVal.obj))]

/-! ## Dictionary lemmas -/

theorem getKey_setKey_self (kvs : List (String × JVal)) (k : String) (v : JVal) :
    getKey (setKey kvs k v) k = some v := by
  induction kvs with
  | nil => simp [setKey, getKey]
  | cons kv rest ih =>
      obtain ⟨k2, v2⟩ := kv
      by_cases h : k2 = k
      · simp [setKey, h, getKey]
      · simp [setKey, h, getKey, ih]

theorem getKey_setKey_ne (kvs : List (String × JVal)) (k k2 : String) (v : JVal)
    (h : k2 ≠ k) : getKey (setKey kvs k v) k2 = getKey kvs k2 := by
  induction kvs with
  | nil => simp [setKey, getKey, Ne.symm h]
  | cons kv rest ih =>
      obtain ⟨k3, v3⟩ := kv
      by_cases h2 : k3 = k
      · subst h2
        simp [setKey, getKey, Ne.symm h]
      · simp [setKey, h2, getKey, ih]

theorem getKey_append_of_none (l1 l2 : List (String × JVal)) (k : String)
    (h : getKey l1 k = none) : getKey (l1 ++ l2) k = getKey l2 k := by
  induction l1 with
  | nil => simp
  | cons kv rest ih =>
      obtain ⟨k2, v2⟩ := kv
      by_cases h2 : k2 = k
      · simp [getKey, h2] at h
      · simp [getKey, h2] at h ⊢
        exact ih h

/-! ## Lookup and update lemmas -/

theorem find_node_none_iff (nodes : List Node) (i : ℚ) :
    find_node nodes i = none ↔ ∀ n ∈ nodes, getKey n "id" ≠ some (.num i) := by
  induction nodes with
  | nil => simp [find_node]
  | cons node rest ih =>
      by_cases h : getKey node "id" = some (.num i)
      · simp [find_node, h]
      · simp [find_node, h, ih]

theorem find_node_some_split (nodes : List Node) (i : ℚ) (n : Node)
    (h : find_node nodes i = some n) :
    ∃ l1 l2, nodes = l1 ++ n :: l2 ∧ getKey n "id" = some (.num i) ∧
      ∀ m ∈ l1, getKey m "id" ≠ some (.num i) := by
  induction nodes with
  | nil => simp [find_node] at h
  | cons node rest ih =>
      by_cases hm : getKey node "id" = some (.num i)
      · simp only [find_node, if_pos hm, Option.some.injEq] at h
        exact ⟨[], rest, by simp [h.symm], h ▸ hm, by simp⟩
      · simp only [find_node, if_neg hm] at h
        obtain ⟨l1, l2, hsplit, hid, hpre⟩ := ih h
        refine ⟨node :: l1, l2, by simp [hsplit], hid, ?_⟩
        intro m hmem
        rcases List.mem_cons.mp hmem with h1 | h1
        · exact h1 ▸ hm
        · exact hpre m h1

theorem updateNodeO_none_of_find_none (nodes : List Node) (i : ℚ)
    (f : Node → Option Node) (h : find_node nodes i = none) :
    updateNodeO nodes i f = none := by
  induction nodes with
  | nil => simp [updateNodeO]
  | cons node rest ih =>
      by_cases hm : getKey node "id" = some (.num i)
      · simp [find_node, hm] at h
      · simp only [find_node, if_neg hm] at h
        simp [updateNodeO, hm, ih h]

theorem updateNodeO_none_of_f_none (nodes : List Node) (i : ℚ)
    (f : Node → Option Node) (n : Node) (hfind : find_node nodes i = some n)
    (hf : f n = none) : updateNodeO nodes i f = none := by
  induction nodes with
  | nil => simp [find_node] at hfind
  | cons node rest ih =>
      by_cases hm : getKey node "id" = some (.num i)
      · simp only [find_node, if_pos hm, Option.some.injEq] at hfind
        subst hfind
        simp [updateNodeO, hm, hf]
      · simp only [find_node, if_neg hm] at hfind
        simp [updateNodeO, hm, ih hfind]

theorem updateNodeO_some_of (nodes : List Node) (i : ℚ)
    (f : Node → Option Node) (n n2 : Node) (hfind : find_node nodes i = some n)
    (hf : f n = some n2) : ∃ out, updateNodeO nodes i f = some out := by
  induction nodes with
  | nil => simp [find_node] at hfind
  | cons node rest ih =>
      by_cases hm : getKey node "id" = some (.num i)
      · simp only [find_node, if_pos hm, Option.some.injEq] at hfind
        subst hfind
        exact ⟨n2 :: rest, by simp [updateNodeO, hm, hf]⟩
      · simp only [find_node, if_neg hm] at hfind
        obtain ⟨out2, hout2⟩ := ih hfind
        exact ⟨node :: out2, by simp [updateNodeO, hm, hout2]⟩

/-- The workhorse: a successful update found a first matching node n,
succeeded on it, and — provided the mutation did not change the id
field — the updated list answers every lookup as expected: the target
id now finds the mutated node, every other id finds what it found
before. -/
theorem updateNodeO_some_spec (nodes out : List Node) (i : ℚ)
    (f : Node → Option Node) (h : updateNodeO nodes i f = some out) :
    ∃ n n2, find_node nodes i = some n ∧ f n = some n2 ∧
      (getKey n2 "id" = getKey n "id" →
        find_node out i = some n2 ∧
        ∀ j, j ≠ i → find_node out j = find_node nodes j) := by
  induction nodes generalizing out with
  | nil => simp [updateNodeO] at h
  | cons node rest ih =>
      by_cases hm : getKey node "id" = some (.num i)
      · simp only [updateNodeO, if_pos hm, Option.map_eq_some'] at h
        obtain ⟨n2, hfn, hout⟩ := h
        refine ⟨node, n2, by simp [find_node, hm], hfn, ?_⟩
        intro hid
        have hm2 : getKey n2 "id" = some (.num i) := hid.trans hm
        subst hout
        constructor
        · simp [find_node, hm2]
        · intro j hj
          have hne : ¬ getKey n2 "id" = some (.num j) := by
            rw [hm2]
            simp only [Option.some.injEq, JVal.num.injEq]
            exact Ne.symm hj
          have hne2 : ¬ getKey node "id" = some (.num j) := by
            rw [hm]
            simp only [Option.some.injEq, JVal.num.injEq]
            exact Ne.symm hj
          simp [find_node, hne, hne2]
      · simp only [updateNodeO, if_neg hm, Option.map_eq_some'] at h
        obtain ⟨out2, hur, hout⟩ := h
        obtain ⟨n, n2, hfind, hfn, hrest⟩ := ih out2 hur
        refine ⟨n, n2, by simp [find_node, hm, hfind], hfn, ?_⟩
        intro hid
        obtain ⟨h1, h2⟩ := hrest hid
        subst hout
        constructor
        · simp [find_node, hm, h1]
        · intro j hj
          by_cases hmj : getKey node "id" = some (.num j)
          · simp [find_node, hmj]
          · simp [find_node, hmj, h2 j hj]

theorem asNodeList_map_obj (ns : List Node) :
    asNodeList (ns.map JVal.obj) = some ns := by
  induction ns with
  | nil => rfl
  | cons n rest ih => simp [asNodeList, asNode, ih]

theorem asNodes_map_obj (ns : List Node) :
    asNodes (.arr (ns.map JVal.obj)) = some ns := by
  simp [asNodes, asNodeList_map_obj]

/-! ## Shape of each per-node action -/

theorem apply_load_image_node_shape (p : String) (n n2 : Node)
    (h : apply_load_image_node p n = some n2) :
    ∃ ws, n2 = setKey n "widgets_values" (.arr ws) := by
  simp only [apply_load_image_node, Option.bind_eq_bind, Option.bind_eq_some] at h
  obtain ⟨w1, hw1, h⟩ := h
  obtain ⟨w2, hw2, h⟩ := h
  simp only [Option.some.injEq] at h
  exact ⟨_, h.symm⟩

theorem apply_video_node_shape (v : String) (n n2 : Node)
    (h : apply_video_node v n = some n2) :
    ∃ ws, n2 = setKey n "widgets_values" (.obj ws) := by
  simp only [apply_video_node, Option.bind_eq_bind, Option.bind_eq_some] at h
  obtain ⟨w1, hw1, h⟩ := h
  obtain ⟨w2, hw2, h⟩ := h
  simp only [Option.some.injEq] at h
  exact ⟨_, h.symm⟩

theorem apply_controlnet_node_shape (preset : Preset) (n n2 : Node)
    (h : apply_controlnet_node preset n = some n2) :
    ∃ xs, n2 = setKey n "widgets_values" (.arr xs) := by
  simp only [apply_controlnet_node, Option.bind_eq_bind, Option.bind_eq_some] at h
  obtain ⟨w1, hw1, h⟩ := h
  obtain ⟨w2, hw2, h⟩ := h
  obtain ⟨w3, hw3, h⟩ := h
  simp only [Option.some.injEq] at h
  exact ⟨_, h.symm⟩

theorem apply_motion_scale_node_shape (preset : Preset) (n n2 : Node)
    (h : apply_motion_scale_node preset n = some n2) :
    ∃ xs, n2 = setKey n "widgets_values" (.arr xs) := by
  simp only [apply_motion_scale_node, Option.bind_eq_bind, Option.bind_eq_some] at h
  obtain ⟨w1, hw1, h⟩ := h
  obtain ⟨w2, hw2, h⟩ := h
  simp only [Option.some.injEq] at h
  exact ⟨_, h.symm⟩

theorem set_mode_shape (m : ℚ) (n n2 : Node) (h : set_mode m n = some n2) :
    n2 = setKey n "mode" (.num m) := by
  simp only [set_mode, Option.some.injEq] at h
  exact h.symm

theorem apply_pfx_node_shape (mo q : String) (n n2 : Node)
    (h : apply_pfx_node mo q n = some n2) :
    (∃ kvs, getKey n "widgets_values" = some (.obj kvs) ∧
      n2 = setKey n "widgets_values"
        (.obj (setKey kvs "filename_prefix" (.str (output_pfx_string mo q))))) ∨
    ((∀ kvs, getKey n "widgets_values" ≠ some (.obj kvs)) ∧ n2 = n) := by
  unfold apply_pfx_node at h
  cases hw : getKey n "widgets_values" with
  | none =>
      rw [hw] at h
      simp only [Option.some.injEq] at h
      exact Or.inr ⟨by simp, h.symm⟩
  | some w =>
      cases w with
      | obj kvs =>
          rw [hw] at h
          simp only [Option.some.injEq] at h
          exact Or.inl ⟨kvs, rfl, h.symm⟩
      | null => rw [hw] at h; simp only [Option.some.injEq] at h
                exact Or.inr ⟨by simp, h.symm⟩
      | bool b => rw [hw] at h; simp only [Option.some.injEq] at h
                  exact Or.inr ⟨by simp, h.symm⟩
      | num q2 => rw [hw] at h; simp only [Option.some.injEq] at h
                  exact Or.inr ⟨by simp, h.symm⟩
      | str s => rw [hw] at h; simp only [Option.some.injEq] at h
                 exact Or.inr ⟨by simp, h.symm⟩
      | arr xs => rw [hw] at h; simp only [Option.some.injEq] at h
                  exact Or.inr ⟨by simp, h.symm⟩

/-! ## Id preservation of each per-node action -/

theorem getKey_id_setKey_wv (n : Node) (v : JVal) :
    getKey (setKey n "widgets_values" v) "id" = getKey n "id" :=
  getKey_setKey_ne n "widgets_values" "id" v (by decide)

theorem getKey_id_setKey_mode (n : Node) (v : JVal) :
    getKey (setKey n "mode" v) "id" = getKey n "id" :=
  getKey_setKey_ne n "mode" "id" v (by decide)

theorem apply_load_image_node_id (p : String) (n n2 : Node)
    (h : apply_load_image_node p n = some n2) : getKey n2 "id" = getKey n "id" := by
  obtain ⟨ws, rfl⟩ := apply_load_image_node_shape p n n2 h
  exact getKey_id_setKey_wv n _

theorem apply_video_node_id (v : String) (n n2 : Node)
    (h : apply_video_node v n = some n2) : getKey n2 "id" = getKey n "id" := by
  obtain ⟨ws, rfl⟩ := apply_video_node_shape v n n2 h
  exact getKey_id_setKey_wv n _

theorem apply_controlnet_node_id (preset : Preset) (n n2 : Node)
    (h : apply_controlnet_node preset n = some n2) : getKey n2 "id" = getKey n "id" := by
  obtain ⟨xs, rfl⟩ := apply_controlnet_node_shape preset n n2 h
  exact getKey_id_setKey_wv n _

theorem apply_motion_scale_node_id (preset : Preset) (n n2 : Node)
    (h : apply_motion_scale_node preset n = some n2) : getKey n2 "id" = getKey n "id" := by
  obtain ⟨xs, rfl⟩ := apply_motion_scale_node_shape preset n n2 h
  exact getKey_id_setKey_wv n _

theorem set_mode_id (m : ℚ) (n n2 : Node) (h : set_mode m n = some n2) :
    getKey n2 "id" = getKey n "id" := by
  rw [set_mode_shape m n n2 h]
  exact getKey_id_setKey_mode n _

theorem apply_pfx_node_id (mo q : String) (n n2 : Node)
    (h : apply_pfx_node mo q n = some n2) : getKey n2 "id" = getKey n "id" := by
  rcases apply_pfx_node_shape mo q n n2 h with ⟨kvs, _, rfl⟩ | ⟨_, rfl⟩
  · exact getKey_id_setKey_wv n _
  · rfl

theorem getArrOr_some_elim (dflt : List JVal) (v : Option JVal) (xs : List JVal)
    (h : getArrOr dflt v = some xs) :
    (v = none ∧ xs = dflt) ∨ v = some (.arr xs) := by
  cases v with
  | none =>
      simp only [getArrOr, Option.some.injEq] at h
      exact Or.inl ⟨rfl, h.symm⟩
  | some w =>
      cases w with
      | arr xs2 =>
          simp only [getArrOr, Option.some.injEq] at h
          exact Or.inr (by rw [h])
      | null => simp [getArrOr] at h
      | bool b => simp [getArrOr] at h
      | num q2 => simp [getArrOr] at h
      | str s => simp [getArrOr] at h
      | obj kvs2 => simp [getArrOr] at h

theorem getObjOrEmpty_some_elim (v : Option JVal) (kvs : List (String × JVal))
    (h : getObjOrEmpty v = some kvs) :
    (v = none ∧ kvs = []) ∨ v = some (.obj kvs) := by
  cases v with
  | none =>
      simp only [getObjOrEmpty, Option.some.injEq] at h
      exact Or.inl ⟨rfl, h.symm⟩
  | some w =>
      cases w with
      | obj kvs2 =>
          simp only [getObjOrEmpty, Option.some.injEq] at h
          exact Or.inr (by rw [h])
      | null => simp [getObjOrEmpty] at h
      | bool b => simp [getObjOrEmpty] at h
      | num q2 => simp [getObjOrEmpty] at h
      | str s => simp [getObjOrEmpty] at h
      | arr xs2 => simp [getObjOrEmpty] at h

theorem listSetIdx_some_elim (xs : List JVal) (i : Nat) (v : JVal) (ys : List JVal)
    (h : listSetIdx xs i v = some ys) : i < xs.length ∧ ys = xs.set i v := by
  unfold listSetIdx at h
  split at h
  · refine ⟨by assumption, ?_⟩
    injection h with h2
    exact h2.symm
  · simp at h

theorem listSetIdx_some_of (xs : List JVal) (i : Nat) (v : JVal)
    (h : i < xs.length) : listSetIdx xs i v = some (xs.set i v) := by
  simp [listSetIdx, h]

/-! ## Claim C1: the quality/mode table -/

/-- C1.  For every workflow document containing the four output nodes
(ids 53, 205, 219, 272), applying the quality setter succeeds, and with
quality sample it sets the preview node's mode to 0, the final node's
mode to 2, the interpolated node's mode to 2 and the upscaled node's
mode to 2, while with quality full it sets preview to 2, final to 0,
interpolated to 2 and upscaled to 2. -/
theorem set_quality_modes (nodes : List Node) (q : String)
    (h53 : (find_node nodes VIDEO_PREVIEW_NODE_ID).isSome)
    (h205 : (find_node nodes VIDEO_FINAL_NODE_ID).isSome)
    (h219 : (find_node nodes VIDEO_INTERPOLATED_NODE_ID).isSome)
    (h272 : (find_node nodes VIDEO_UPSCALED_MODEL_NODE_ID).isSome) :
    ∃ out, set_quality nodes q = some out ∧
      (q = "sample" →
        node_mode out VIDEO_PREVIEW_NODE_ID = some (.num 0) ∧
        node_mode out VIDEO_FINAL_NODE_ID = some (.num 2) ∧
        node_mode out VIDEO_INTERPOLATED_NODE_ID = some (.num 2) ∧
        node_mode out VIDEO_UPSCALED_MODEL_NODE_ID = some (.num 2)) ∧
      (q = "full" →
        node_mode out VIDEO_PREVIEW_NODE_ID = some (.num 2) ∧
        node_mode out VIDEO_FINAL_NODE_ID = some (.num 0) ∧
        node_mode out VIDEO_INTERPOLATED_NODE_ID = some (.num 2) ∧
        node_mode out VIDEO_UPSCALED_MODEL_NODE_ID = some (.num 2)) := by
  obtain ⟨n53, hf53⟩ := Option.isSome_iff_exists.mp h53
  obtain ⟨n205, hf205⟩ := Option.isSome_iff_exists.mp h205
  obtain ⟨n219, hf219⟩ := Option.isSome_iff_exists.mp h219
  obtain ⟨n272, hf272⟩ := Option.isSome_iff_exists.mp h272
  obtain ⟨s1, h1⟩ := updateNodeO_some_of nodes VIDEO_PREVIEW_NODE_ID
    (set_mode (if q = "sample" then 0 else 2)) n53 _ hf53 rfl
  obtain ⟨a1, b1, hfa1, hfb1, hrest1⟩ := updateNodeO_some_spec nodes s1 _ _ h1
  obtain ⟨hself1, hoth1⟩ := hrest1 (set_mode_id _ _ _ hfb1)
  have hs1_205 : find_node s1 VIDEO_FINAL_NODE_ID = some n205 := by
    rw [hoth1 _ (by decide)]; exact hf205
  obtain ⟨s2, h2⟩ := updateNodeO_some_of s1 VIDEO_FINAL_NODE_ID
    (set_mode (if q = "sample" then 2 else 0)) n205 _ hs1_205 rfl
  obtain ⟨a2, b2, hfa2, hfb2, hrest2⟩ := updateNodeO_some_spec s1 s2 _ _ h2
  obtain ⟨hself2, hoth2⟩ := hrest2 (set_mode_id _ _ _ hfb2)
  have hs2_219 : find_node s2 VIDEO_INTERPOLATED_NODE_ID = some n219 := by
    rw [hoth2 _ (by decide), hoth1 _ (by decide)]; exact hf219
  obtain ⟨s3, h3⟩ := updateNodeO_some_of s2 VIDEO_INTERPOLATED_NODE_ID
    (set_mode 2) n219 _ hs2_219 rfl
  obtain ⟨a3, b3, hfa3, hfb3, hrest3⟩ := updateNodeO_some_spec s2 s3 _ _ h3
  obtain ⟨hself3, hoth3⟩ := hrest3 (set_mode_id _ _ _ hfb3)
  have hs3_272 : find_node s3 VIDEO_UPSCALED_MODEL_NODE_ID = some n272 := by
    rw [hoth3 _ (by decide), hoth2 _ (by decide), hoth1 _ (by decide)]; exact hf272
  obtain ⟨s4, h4⟩ := updateNodeO_some_of s3 VIDEO_UPSCALED_MODEL_NODE_ID
    (set_mode 2) n272 _ hs3_272 rfl
  obtain ⟨a4, b4, hfa4, hfb4, hrest4⟩ := updateNodeO_some_spec s3 s4 _ _ h4
  obtain ⟨hself4, hoth4⟩ := hrest4 (set_mode_id _ _ _ hfb4)
  have m1 : node_mode s4 VIDEO_PREVIEW_NODE_ID
      = some (.num (if q = "sample" then 0 else 2)) := by
    unfold node_mode
    rw [hoth4 _ (by decide), hoth3 _ (by decide), hoth2 _ (by decide), hself1,
      set_mode_shape _ _ _ hfb1]
    simp [getKey_setKey_self]
  have m2 : node_mode s4 VIDEO_FINAL_NODE_ID
      = some (.num (if q = "sample" then 2 else 0)) := by
    unfold node_mode
    rw [hoth4 _ (by decide), hoth3 _ (by decide), hself2, set_mode_shape _ _ _ hfb2]
    simp [getKey_setKey_self]
  have m3 : node_mode s4 VIDEO_INTERPOLATED_NODE_ID = some (.num 2) := by
    unfold node_mode
    rw [hoth4 _ (by decide), hself3, set_mode_shape _ _ _ hfb3]
    simp [getKey_setKey_self]
  have m4 : node_mode s4 VIDEO_UPSCALED_MODEL_NODE_ID = some (.num 2) := by
    unfold node_mode
    rw [hself4, set_mode_shape _ _ _ hfb4]
    simp [getKey_setKey_self]
  refine ⟨s4, ?_, ?_, ?_⟩
  · simp only [set_quality, Option.bind_eq_bind, h1, Option.some_bind', h2, h3, h4]
  · intro hq
    subst hq
    simp only [if_pos rfl] at m1 m2
    exact ⟨m1, m2, m3, m4⟩
  · intro hq
    subst hq
    have hne : ("full" : String) ≠ "sample" := by decide
    rw [if_neg hne] at m1 m2
    exact ⟨m1, m2, m3, m4⟩

/-- C1 witness: the theorem evaluated on a concrete four-node document
with quality sample. -/
theorem set_quality_modes_w :
    set_quality cq_nodes "sample" = some cq_out ∧
    node_mode cq_out VIDEO_PREVIEW_NODE_ID = some (.num 0) ∧
    node_mode cq_out VIDEO_FINAL_NODE_ID = some (.num 2) ∧
    node_mode cq_out VIDEO_INTERPOLATED_NODE_ID = some (.num 2) ∧
    node_mode cq_out VIDEO_UPSCALED_MODEL_NODE_ID = some (.num 2) := by
  obtain ⟨out, hout, hsample, _⟩ := set_quality_modes cq_nodes "sample" rfl rfl rfl rfl
  have he : some out = some cq_out := hout.symm.trans rfl
  injection he with he2
  subst he2
  obtain ⟨p1, p2, p3, p4⟩ := hsample rfl
  exact ⟨hout, p1, p2, p3, p4⟩

/-! ## Claim C7: unknown preset fails before touching any node -/

/-- C7.  For every node list and unknown preset name, the motion
settings setter fails (with the table lookup error) and produces no
document at all, so every node is left unchanged: the failure happens
at the preset lookup, before any node access. -/
theorem set_motion_unknown_preset (nodes : List Node) (m : String)
    (ov : Option String) (h : MOTION_PRESETS m = none) :
    set_motion_settings nodes m ov = none := by
  simp [set_motion_settings, h]

/-- C7 witness: a concrete unknown preset name on a concrete node
list. -/
theorem set_motion_unknown_preset_w :
    set_motion_settings [[("id", JVal.num 568)]] "spiral" none = none :=
  set_motion_unknown_preset [[("id", JVal.num 568)]] "spiral" none rfl

/-! ## Claim C6: node lookup contract -/

/-- C6.  Node lookup returns the first node in sequence order whose id
field equals the target; when no node matches it fails (none, the
NodeNotFound error), and then the whole build aborts yielding no output
document, shown here for a missing first start-image node id 142. -/
theorem find_node_contract (nodes : List Node) (i : ℚ) :
    (find_node nodes i = none ↔ ∀ n ∈ nodes, getKey n "id" ≠ some (.num i)) ∧
    (∀ n, find_node nodes i = some n →
      ∃ l1 l2, nodes = l1 ++ n :: l2 ∧ getKey n "id" = some (.num i) ∧
        ∀ m ∈ l1, getKey m "id" ≠ some (.num i)) ∧
    (∀ (data : List (String × JVal)) (s e mo q : String) (mv : Option String),
      getKey data "nodes" = some (.arr (nodes.map JVal.obj)) →
      find_node nodes 142 = none →
      build_workflow data s e mo q mv = none) := by
  refine ⟨find_node_none_iff nodes i, find_node_some_split nodes i, ?_⟩
  intro data s e mo q mv hdata hmiss
  have h142 : set_load_image nodes 142 s = none :=
    updateNodeO_none_of_find_none nodes 142 _ hmiss
  simp only [build_workflow, Option.bind_eq_bind, hdata, Option.some_bind',
    asNodes_map_obj, LOAD_IMAGE_START_IDS, List.foldlM_cons, h142, Option.none_bind']

/-- C6 witness: build on a concrete document missing node id 142
yields no output document. -/
theorem find_node_contract_w :
    build_workflow c6_doc "s.png" "e.png" "zoom" "sample" none = none :=
  (find_node_contract c6_nodes 142).2.2 c6_doc "s.png" "e.png" "zoom" "sample" none rfl rfl

/-! ## Claim C4: image-slot setter on absent or empty widget lists -/

/-- C4.  For every path p, applying the image-slot setter to a node
whose widgets_values is absent, or present but an empty sequence,
succeeds and leaves that node's widgets_values exactly [p, "image"]. -/
theorem set_load_image_default_init (nodes : List Node) (i : ℚ) (p : String)
    (n : Node) (hf : find_node nodes i = some n)
    (hw : getKey n "widgets_values" = none ∨
          getKey n "widgets_values" = some (.arr [])) :
    ∃ out, set_load_image nodes i p = some out ∧
      find_node out i = some (setKey n "widgets_values" (.arr [.str p, .str "image"])) := by
  have happ : apply_load_image_node p n
      = some (setKey n "widgets_values" (.arr [.str p, .str "image"])) := by
    rcases hw with hw | hw
    · simp [apply_load_image_node, hw, getArrOr, listSetIdx, Option.bind_eq_bind]
    · simp [apply_load_image_node, hw, getArrOr, listSetIdx, Option.bind_eq_bind]
  obtain ⟨out, hout⟩ := updateNodeO_some_of nodes i _ n _ hf happ
  refine ⟨out, hout, ?_⟩
  obtain ⟨a, b, hfa, hfb, hrest⟩ := updateNodeO_some_spec nodes out i _ hout
  rw [hf] at hfa
  injection hfa with ha
  subst ha
  rw [happ] at hfb
  injection hfb with hb
  subst hb
  obtain ⟨hself, _⟩ := hrest (getKey_id_setKey_wv n _)
  exact hself

/-- C4 witness: the setter evaluated on a concrete loader node with no
widgets_values field. -/
theorem set_load_image_default_init_w :
    set_load_image [c4_node] 142 "start.png" = some c4_out ∧
    find_node c4_out 142
      = some (setKey c4_node "widgets_values" (.arr [.str "start.png", .str "image"])) := by
  obtain ⟨out, h1, h2⟩ :=
    set_load_image_default_init [c4_node] 142 "start.png" c4_node rfl (Or.inl rfl)
  have he : some out = some c4_out := h1.symm.trans rfl
  injection he with he2
  subst he2
  exact ⟨h1, h2⟩

/-! ## Claim C3: the general shape produced by the image-slot setter -/

theorem apply_load_image_node_spec (p : String) (n b : Node)
    (h : apply_load_image_node p n = some b) :
    ∃ ws, b = setKey n "widgets_values" (.arr ws) ∧
      ws[0]? = some (.str p) ∧ 2 ≤ ws.length ∧
      ((getKey n "widgets_values" = none ∨ getKey n "widgets_values" = some (.arr []) ∨
        (∃ x, getKey n "widgets_values" = some (.arr [x]))) →
        ws = [.str p, .str "image"]) ∧
      (∀ xs, getKey n "widgets_values" = some (.arr xs) → 2 ≤ xs.length →
        ws = .str p :: xs.tail) := by
  simp only [apply_load_image_node, Option.bind_eq_bind, Option.bind_eq_some] at h
  obtain ⟨w1, hw1, h⟩ := h
  obtain ⟨w2, hw2, h⟩ := h
  simp only [Option.some.injEq] at h
  rcases getArrOr_some_elim _ _ _ hw1 with ⟨hnone, hw1d⟩ | harr
  · subst hw1d
    simp [listSetIdx, List.set] at hw2
    subst hw2
    simp at h
    refine ⟨[.str p, .str "image"], h.symm, rfl, by simp, fun _ => rfl, ?_⟩
    intro xs hxs hlen2
    rw [hnone] at hxs
    simp at hxs
  · cases w1 with
    | nil =>
        simp [listSetIdx, List.set] at hw2
        subst hw2
        simp at h
        refine ⟨[.str p, .str "image"], h.symm, rfl, by simp, fun _ => rfl, ?_⟩
        intro xs hxs hlen2
        rw [harr] at hxs
        simp only [Option.some.injEq, JVal.arr.injEq] at hxs
        subst hxs
        simp at hlen2
    | cons y t =>
        cases t with
        | nil =>
            simp [listSetIdx, List.set] at hw2
            subst hw2
            simp at h
            refine ⟨[.str p, .str "image"], h.symm, rfl, by simp, fun _ => rfl, ?_⟩
            intro xs hxs hlen2
            rw [harr] at hxs
            simp only [Option.some.injEq, JVal.arr.injEq] at hxs
            subst hxs
            simp at hlen2
        | cons z t2 =>
            simp [listSetIdx, List.set] at hw2
            subst hw2
            have hne1 : ¬ ((JVal.str p :: z :: t2).length = 1) := by simp
            rw [if_neg hne1] at h
            refine ⟨.str p :: z :: t2, h.symm, rfl, by simp, ?_, ?_⟩
            · intro hyp
              rcases hyp with h1 | h1 | ⟨x, h1⟩ <;> rw [harr] at h1 <;> simp at h1
            · intro xs hxs hlen2
              rw [harr] at hxs
              simp only [Option.some.injEq, JVal.arr.injEq] at hxs
              subst hxs
              rfl

theorem apply_load_image_node_absent (p : String) (n : Node)
    (hw : getKey n "widgets_values" = none) :
    apply_load_image_node p n
      = some (setKey n "widgets_values" (.arr [.str p, .str "image"])) := by
  simp [apply_load_image_node, hw, getArrOr, listSetIdx, Option.bind_eq_bind]

theorem apply_load_image_node_arr_some (p : String) (n : Node) (xs : List JVal)
    (hw : getKey n "widgets_values" = some (.arr xs)) :
    (apply_load_image_node p n).isSome := by
  have hWest : 0 < (if xs.isEmpty = true then xs ++ [JVal.str "", JVal.str "image"]
      else xs).length := by
    by_cases hxe : xs.isEmpty = true
    · simp [hxe]
    · simp only [hxe, if_false]
      cases xs with
      | nil => simp at hxe
      | cons y t => simp
  simp only [apply_load_image_node, Option.bind_eq_bind, hw, getArrOr, Option.some_bind',
    listSetIdx_some_of _ _ _ hWest, Option.isSome_some]

/-- C3 amended.  For every node whose prior widgets_values is absent or
an ordered sequence, and every path p: the image-slot setter succeeds
and the resulting widgets_values is an ordered sequence whose first
element is p and whose length is at least 2; it is exactly
[p, "image"] when the prior field was absent, empty, or a one-element
sequence, while for longer prior sequences only element 0 is
overwritten (elements past index 0, and the length, are kept).
Mapping-shaped priors are outside this statement: there the source
setter also succeeds, by inserting an integer key into the mapping,
and the result is a mapping rather than a sequence. -/
theorem set_load_image_shape (nodes : List Node) (i : ℚ) (p : String) (n : Node)
    (hf : find_node nodes i = some n)
    (hw : getKey n "widgets_values" = none ∨
          ∃ xs0, getKey n "widgets_values" = some (.arr xs0)) :
    ∃ out ws, set_load_image nodes i p = some out ∧
      find_node out i = some (setKey n "widgets_values" (.arr ws)) ∧
      ws[0]? = some (.str p) ∧ 2 ≤ ws.length ∧
      ((getKey n "widgets_values" = none ∨ getKey n "widgets_values" = some (.arr []) ∨
        (∃ x, getKey n "widgets_values" = some (.arr [x]))) →
        ws = [.str p, .str "image"]) ∧
      (∀ xs, getKey n "widgets_values" = some (.arr xs) → 2 ≤ xs.length →
        ws = .str p :: xs.tail) := by
  have hsucc : ∃ b, apply_load_image_node p n = some b := by
    rcases hw with hw | ⟨xs0, hw⟩
    · exact ⟨_, apply_load_image_node_absent p n hw⟩
    · exact Option.isSome_iff_exists.mp (apply_load_image_node_arr_some p n xs0 hw)
  obtain ⟨b, hb⟩ := hsucc
  obtain ⟨out, hout⟩ := updateNodeO_some_of nodes i _ n b hf hb
  obtain ⟨a, b2, hfa, hfb, hrest⟩ := updateNodeO_some_spec nodes out i _ hout
  rw [hf] at hfa
  injection hfa with ha
  subst ha
  obtain ⟨ws, hbs, h0, hlen, hdflt, htail⟩ := apply_load_image_node_spec p n b2 hfb
  subst hbs
  obtain ⟨hself, _⟩ := hrest (getKey_id_setKey_wv n _)
  exact ⟨out, ws, hout, hself, h0, hlen, hdflt, htail⟩

/-- C3 counterexample: on a node whose prior widgets_values is the
three-element sequence ["a", "b", "c"], the setter keeps three elements
and keeps "b" at index 1, so the result is not the claimed 2-element
sequence [path, "image"]. -/
theorem set_load_image_two_elem_cex :
    set_load_image [c3_node] 9 "p.png"
      = some [[("id", JVal.num 9),
               ("widgets_values", JVal.arr [.str "p.png", .str "b", .str "c"])]] ∧
    JVal.arr [.str "p.png", .str "b", .str "c"]
      ≠ JVal.arr [.str "p.png", .str "image"] := by
  refine ⟨rfl, ?_⟩
  intro hcontra
  simp at hcontra

/-- C3 witness: the amended theorem evaluated on a concrete node whose
prior widget list is ["a", "b"]: index 0 becomes the path, index 1
stays "b". -/
theorem set_load_image_shape_w :
    (find_node c3_out 11).map (fun nd => getKey nd "widgets_values")
      = some (some (.arr [.str "q.png", .str "b"])) := by
  obtain ⟨out, ws, hout, hfind, h0, hlen, hdflt, htail⟩ :=
    set_load_image_shape [c3b_node] 11 "q.png" c3b_node rfl
      (Or.inr ⟨[.str "a", .str "b"], rfl⟩)
  have he : some out = some c3_out := hout.symm.trans rfl
  injection he with he2
  subst he2
  have hws : ws = [.str "q.png", .str "b"] :=
    htail [.str "a", .str "b"] rfl (by simp)
  rw [hfind, hws]
  simp [c3b_node, setKey, getKey]

/-! ## Claims C2 and C10: the controlnet-apply patch -/

theorem set_motion_settings_some_elim (nodes out : List Node) (m : String)
    (ov : Option String) (h : set_motion_settings nodes m ov = some out) :
    ∃ preset s1 s2, MOTION_PRESETS m = some preset ∧
      updateNodeO nodes MOTION_VIDEO_NODE_ID
        (apply_video_node (resolve_video ov preset)) = some s1 ∧
      updateNodeO s1 CONTROLNET_APPLY_NODE_ID
        (apply_controlnet_node preset) = some s2 ∧
      updateNodeO s2 MOTION_SCALE_NODE_ID
        (apply_motion_scale_node preset) = some out := by
  simp only [set_motion_settings, Option.bind_eq_bind, Option.bind_eq_some] at h
  obtain ⟨preset, hp, h⟩ := h
  obtain ⟨s1, h1, h⟩ := h
  obtain ⟨s2, h2, h3⟩ := h
  exact ⟨preset, s1, s2, hp, h1, h2, h3⟩

theorem apply_controlnet_node_spec (preset : Preset) (n b : Node) (xs : List JVal)
    (hw : getKey n "widgets_values" = some (.arr xs))
    (h : apply_controlnet_node preset n = some b) :
    ∃ ws, b = setKey n "widgets_values" (.arr ws) ∧
      ws[0]? = some (.num preset.controlnet_strength) ∧
      ws[2]? = some (.num preset.controlnet_end) ∧
      ws.length = max xs.length 3 ∧
      (2 ≤ xs.length → ws[1]? = xs[1]?) ∧ xs ≠ [] := by
  simp only [apply_controlnet_node, Option.bind_eq_bind, hw, getArrOr,
    Option.some_bind', Option.bind_eq_some, Option.some.injEq] at h
  obtain ⟨w2, hw2, w3, hw3, hb⟩ := h
  obtain ⟨h0lt, hw2e⟩ := listSetIdx_some_elim _ _ _ _ hw2
  subst hw2e
  obtain ⟨h2lt, hw3e⟩ := listSetIdx_some_elim _ _ _ _ hw3
  subst hw3e
  have hxs : xs ≠ [] := by
    intro hx
    subst hx
    simp at h0lt
  refine ⟨_, hb.symm, ?_, ?_, ?_, ?_, hxs⟩
  · rw [List.getElem?_set_ne (by decide)]
    rw [List.getElem?_append_left (by simpa using h0lt)]
    simp [List.getElem?_set_self, h0lt]
  · simp only [List.length_append, List.length_set, List.length_replicate] at h2lt
    simp [List.getElem?_set_self, h2lt]
  · simp only [List.length_set, List.length_append, List.length_replicate]
    omega
  · intro hxs2
    rw [List.getElem?_set_ne (by decide)]
    rw [List.getElem?_append_left (by simp; omega)]
    rw [List.getElem?_set_ne (by decide)]

theorem apply_controlnet_node_empty (preset : Preset) (n : Node)
    (hw : getKey n "widgets_values" = some (.arr [])) :
    apply_controlnet_node preset n = none := by
  simp [apply_controlnet_node, hw, getArrOr, listSetIdx, Option.bind_eq_bind]

theorem apply_controlnet_node_eval (preset : Preset) (n : Node) (xs : List JVal)
    (hw : getKey n "widgets_values" = some (.arr xs)) (h0 : 0 < xs.length) :
    apply_controlnet_node preset n = some (setKey n "widgets_values"
      (.arr (((xs.set 0 (.num preset.controlnet_strength))
        ++ List.replicate (3 - (xs.set 0 (.num preset.controlnet_strength)).length)
          (JVal.num 0)).set 2 (.num preset.controlnet_end)))) := by
  have h2 : 2 < ((xs.set 0 (JVal.num preset.controlnet_strength))
      ++ List.replicate (3 - (xs.set 0 (JVal.num preset.controlnet_strength)).length)
        (JVal.num 0)).length := by
    simp only [List.length_append, List.length_set, List.length_replicate]
    omega
  simp only [apply_controlnet_node, Option.bind_eq_bind, hw, getArrOr, Option.some_bind',
    listSetIdx_some_of _ _ _ h0, listSetIdx_some_of _ _ _ h2]

/-- C2.  For every known preset and document on which the motion
settings setter succeeds, when the controlnet-apply node's prior
widgets_values is an ordered sequence, the resulting sequence holds
exactly the preset's controlnet strength at index 0 and the preset's
controlnet end at index 2, and keeps the prior element at index 1
whenever the prior sequence had one. -/
theorem set_motion_controlnet_values (nodes out : List Node) (m : String)
    (preset : Preset) (ov : Option String) (n125 : Node) (xs : List JVal)
    (hp : MOTION_PRESETS m = some preset)
    (h : set_motion_settings nodes m ov = some out)
    (hf : find_node nodes CONTROLNET_APPLY_NODE_ID = some n125)
    (hw : getKey n125 "widgets_values" = some (.arr xs)) :
    ∃ ws, find_node out CONTROLNET_APPLY_NODE_ID
        = some (setKey n125 "widgets_values" (.arr ws)) ∧
      ws[0]? = some (.num preset.controlnet_strength) ∧
      ws[2]? = some (.num preset.controlnet_end) ∧
      (2 ≤ xs.length → ws[1]? = xs[1]?) := by
  obtain ⟨preset2, s1, s2, hp2, h1, h2, h3⟩ := set_motion_settings_some_elim _ _ _ _ h
  rw [hp] at hp2
  injection hp2 with hpe
  subst hpe
  obtain ⟨a1, b1, hfa1, hfb1, hrest1⟩ := updateNodeO_some_spec _ _ _ _ h1
  obtain ⟨_, hoth1⟩ := hrest1 (apply_video_node_id _ _ _ hfb1)
  have hf1 : find_node s1 CONTROLNET_APPLY_NODE_ID = some n125 := by
    rw [hoth1 _ (by decide)]
    exact hf
  obtain ⟨a2, b2, hfa2, hfb2, hrest2⟩ := updateNodeO_some_spec _ _ _ _ h2
  rw [hf1] at hfa2
  injection hfa2 with ha2
  subst ha2
  obtain ⟨hself2, _⟩ := hrest2 (apply_controlnet_node_id _ _ _ hfb2)
  obtain ⟨a3, b3, hfa3, hfb3, hrest3⟩ := updateNodeO_some_spec _ _ _ _ h3
  obtain ⟨_, hoth3⟩ := hrest3 (apply_motion_scale_node_id _ _ _ hfb3)
  obtain ⟨ws, hb2, h0e, h2e, _, h1e, _⟩ := apply_controlnet_node_spec preset n125 b2 xs hw hfb2
  refine ⟨ws, ?_, h0e, h2e, h1e⟩
  rw [hoth3 _ (by decide), hself2, hb2]

/-- C2 witness: preset zoom on a concrete document whose controlnet
node holds [0.5, 0, 0.3]: the result holds [0.55, 0, 0.45]. -/
theorem set_motion_controlnet_values_w :
    (find_node cm_out CONTROLNET_APPLY_NODE_ID).map (fun nd => getKey nd "widgets_values")
      = some (some (.arr [.num 0.55, .num 0, .num 0.45])) := by
  obtain ⟨ws, hfind, h0e, h2e, h1e⟩ :=
    set_motion_controlnet_values cm_nodes cm_out "zoom"
      ⟨"motions/zoom.mp4", 0.55, 0.45, 1.15⟩ none cm125_node
      [.num 0.5, .num 0, .num 0.3] rfl rfl rfl rfl
  have hr : find_node cm_out CONTROLNET_APPLY_NODE_ID
      = some [("id", JVal.num 125),
              ("widgets_values", JVal.arr [.num 0.55, .num 0, .num 0.45])] := rfl
  have hcomb := hfind.symm.trans hr
  have hsk : setKey cm125_node "widgets_values" (JVal.arr ws)
      = [("id", JVal.num 125), ("widgets_values", JVal.arr ws)] := rfl
  rw [hsk] at hcomb
  injection hcomb with hcomb2
  injection hcomb2 with h1 h2
  injection h2 with h3 h4
  injection h3 with h5 h6
  injection h6 with h7
  rw [hfind, hsk, h7]
  rfl

/-- C10 amended.  With the three motion-related nodes present and the
controlnet-apply node's widgets_values a present ordered sequence: on
the empty sequence the motion settings setter fails (IndexError at the
index-0 write, before the padding loop), while on any sequence of
length at least 1 the controlnet step completes and any successful run
leaves the sequence with length at least 3 (namely max of the prior
length and 3). -/
theorem set_motion_controlnet_length (nodes : List Node) (m : String)
    (preset : Preset) (ov : Option String) (n125 : Node) (xs : List JVal)
    (hp : MOTION_PRESETS m = some preset)
    (hf : find_node nodes CONTROLNET_APPLY_NODE_ID = some n125)
    (hw : getKey n125 "widgets_values" = some (.arr xs)) :
    (xs = [] → set_motion_settings nodes m ov = none) ∧
    (xs ≠ [] → (apply_controlnet_node preset n125).isSome) ∧
    (∀ out, set_motion_settings nodes m ov = some out →
      ∃ ws, find_node out CONTROLNET_APPLY_NODE_ID
          = some (setKey n125 "widgets_values" (.arr ws)) ∧
        ws.length = max xs.length 3 ∧ 3 ≤ ws.length ∧ xs ≠ []) := by
  refine ⟨?_, ?_, ?_⟩
  · intro hxs
    subst hxs
    cases hcase : updateNodeO nodes MOTION_VIDEO_NODE_ID
        (apply_video_node (resolve_video ov preset)) with
    | none => simp [set_motion_settings, hp, hcase, Option.bind_eq_bind]
    | some s1 =>
        obtain ⟨a1, b1, hfa1, hfb1, hrest1⟩ := updateNodeO_some_spec _ _ _ _ hcase
        obtain ⟨_, hoth1⟩ := hrest1 (apply_video_node_id _ _ _ hfb1)
        have hf1 : find_node s1 CONTROLNET_APPLY_NODE_ID = some n125 := by
          rw [hoth1 _ (by decide)]
          exact hf
        have hcn : updateNodeO s1 CONTROLNET_APPLY_NODE_ID
            (apply_controlnet_node preset) = none :=
          updateNodeO_none_of_f_none _ _ _ n125 hf1
            (apply_controlnet_node_empty preset n125 hw)
        simp [set_motion_settings, hp, hcase, hcn, Option.bind_eq_bind]
  · intro hxs
    rw [apply_controlnet_node_eval preset n125 xs hw (List.length_pos.mpr hxs)]
    rfl
  · intro out hout
    obtain ⟨preset2, s1, s2, hp2, h1, h2, h3⟩ := set_motion_settings_some_elim _ _ _ _ hout
    rw [hp] at hp2
    injection hp2 with hpe
    subst hpe
    obtain ⟨a1, b1, hfa1, hfb1, hrest1⟩ := updateNodeO_some_spec _ _ _ _ h1
    obtain ⟨_, hoth1⟩ := hrest1 (apply_video_node_id _ _ _ hfb1)
    have hf1 : find_node s1 CONTROLNET_APPLY_NODE_ID = some n125 := by
      rw [hoth1 _ (by decide)]
      exact hf
    obtain ⟨a2, b2, hfa2, hfb2, hrest2⟩ := updateNodeO_some_spec _ _ _ _ h2
    rw [hf1] at hfa2
    injection hfa2 with ha2
    subst ha2
    obtain ⟨hself2, _⟩ := hrest2 (apply_controlnet_node_id _ _ _ hfb2)
    obtain ⟨a3, b3, hfa3, hfb3, hrest3⟩ := updateNodeO_some_spec _ _ _ _ h3
    obtain ⟨_, hoth3⟩ := hrest3 (apply_motion_scale_node_id _ _ _ hfb3)
    obtain ⟨ws, hb2, _, _, hlen, _, hxs⟩ := apply_controlnet_node_spec preset n125 b2 xs hw hfb2
    refine ⟨ws, ?_, hlen, ?_, hxs⟩
    · rw [hoth3 _ (by decide), hself2, hb2]
    · rw [hlen]
      omega

/-- C10 counterexample: with the controlnet widget list present but
empty, the motion settings setter does not complete: the index-0
assignment fails (IndexError) before the padding loop can run, so no
document with a length-3 list is produced. -/
theorem set_motion_empty_controlnet_cex :
    set_motion_settings c10_nodes "zoom" none = none := rfl

/-- C10 witness: the amended theorem on a concrete length-3 controlnet
widget list: the controlnet step completes. -/
theorem set_motion_controlnet_length_w :
    (apply_controlnet_node ⟨"motions/zoom.mp4", 0.55, 0.45, 1.15⟩ cm125_node).isSome :=
  (set_motion_controlnet_length cm_nodes "zoom" ⟨"motions/zoom.mp4", 0.55, 0.45, 1.15⟩
    none cm125_node [.num 0.5, .num 0, .num 0.3] rfl rfl rfl).2.1 (by simp)

/-! ## Claim C5: the motion-video patch -/

theorem videopreview_params_spec (v : String) (vp0 vp2 : List (String × JVal))
    (h : videopreview_params v vp0 = some vp2) :
    ∃ ps, getKey vp2 "params" = some (.obj ps) ∧
      getKey ps "filename" = some (.str v) := by
  unfold videopreview_params at h
  cases hps : getKey vp0 "params" with
  | none =>
      rw [hps] at h
      simp only [Option.some.injEq] at h
      subst h
      refine ⟨[("filename", JVal.str v)], ?_, rfl⟩
      rw [getKey_append_of_none _ _ _ hps]
      rfl
  | some w =>
      cases w with
      | obj ps0 =>
          rw [hps] at h
          simp only [Option.some.injEq] at h
          subst h
          exact ⟨setKey ps0 "filename" (.str v), getKey_setKey_self _ _ _,
            getKey_setKey_self _ _ _⟩
      | null => rw [hps] at h; simp at h
      | bool b => rw [hps] at h; simp at h
      | num q => rw [hps] at h; simp at h
      | str s => rw [hps] at h; simp at h
      | arr xs => rw [hps] at h; simp at h

theorem apply_videopreview_spec (v : String) (widgets w1 : List (String × JVal))
    (h : apply_videopreview v widgets = some w1) :
    getKey w1 "video" = getKey widgets "video" ∧
    (∀ vp, getKey w1 "videopreview" = some (.obj vp) →
      ∃ ps, getKey vp "params" = some (.obj ps) ∧
        getKey ps "filename" = some (.str v)) := by
  unfold apply_videopreview at h
  cases hvp : getKey widgets "videopreview" with
  | none =>
      rw [hvp] at h
      simp only [Option.some.injEq] at h
      subst h
      refine ⟨rfl, ?_⟩
      intro vp hvp2
      rw [hvp] at hvp2
      simp at hvp2
  | some w =>
      cases w with
      | obj vp0 =>
          rw [hvp] at h
          simp only [Option.map_eq_some'] at h
          obtain ⟨vp2, hvp2, hw1⟩ := h
          subst hw1
          constructor
          · exact getKey_setKey_ne _ _ _ _ (by decide)
          · intro vp hvp3
            rw [getKey_setKey_self] at hvp3
            injection hvp3 with h4
            injection h4 with h5
            subst h5
            exact videopreview_params_spec v vp0 vp2 hvp2
      | null =>
          rw [hvp] at h
          simp only [Option.some.injEq] at h
          subst h
          refine ⟨rfl, ?_⟩
          intro vp hvp2
          rw [hvp] at hvp2
          simp at hvp2
      | bool b =>
          rw [hvp] at h
          simp only [Option.some.injEq] at h
          subst h
          refine ⟨rfl, ?_⟩
          intro vp hvp2
          rw [hvp] at hvp2
          simp at hvp2
      | num q =>
          rw [hvp] at h
          simp only [Option.some.injEq] at h
          subst h
          refine ⟨rfl, ?_⟩
          intro vp hvp2
          rw [hvp] at hvp2
          simp at hvp2
      | str s =>
          rw [hvp] at h
          simp only [Option.some.injEq] at h
          subst h
          refine ⟨rfl, ?_⟩
          intro vp hvp2
          rw [hvp] at hvp2
          simp at hvp2
      | arr xs =>
          rw [hvp] at h
          simp only [Option.some.injEq] at h
          subst h
          refine ⟨rfl, ?_⟩
          intro vp hvp2
          rw [hvp] at hvp2
          simp at hvp2

theorem apply_video_node_spec2 (v : String) (n b : Node)
    (h : apply_video_node v n = some b) :
    ∃ ws, b = setKey n "widgets_values" (.obj ws) ∧
      getKey ws "video" = some (.str v) ∧
      (∀ vp, getKey ws "videopreview" = some (.obj vp) →
        ∃ ps, getKey vp "params" = some (.obj ps) ∧
          getKey ps "filename" = some (.str v)) := by
  simp only [apply_video_node, Option.bind_eq_bind, Option.bind_eq_some] at h
  obtain ⟨w0, hw0, h⟩ := h
  obtain ⟨w1, hw1, h⟩ := h
  simp only [Option.some.injEq] at h
  obtain ⟨hvid, hvp⟩ := apply_videopreview_spec v _ _ hw1
  refine ⟨w1, h.symm, ?_, hvp⟩
  rw [hvid, getKey_setKey_self]

/-- C5.  For every known preset, override choice and successful run of
the motion settings setter: the resolved video value is the override
when it is provided and non-empty and the preset's video path
otherwise; the motion-video node's widget mapping maps video to that
resolved value, and whenever its videopreview entry is a mapping, that
mapping's params sub-mapping maps filename to the same resolved
value. -/
theorem set_motion_video_value (nodes out : List Node) (m : String)
    (preset : Preset) (ov : Option String) (n568 : Node)
    (hp : MOTION_PRESETS m = some preset)
    (h : set_motion_settings nodes m ov = some out)
    (hf : find_node nodes MOTION_VIDEO_NODE_ID = some n568) :
    (∀ s, ov = some s → s ≠ "" → resolve_video ov preset = s) ∧
    (ov = none → resolve_video ov preset = preset.video) ∧
    (ov = some "" → resolve_video ov preset = preset.video) ∧
    ∃ ws, find_node out MOTION_VIDEO_NODE_ID
        = some (setKey n568 "widgets_values" (.obj ws)) ∧
      getKey ws "video" = some (.str (resolve_video ov preset)) ∧
      (∀ vp, getKey ws "videopreview" = some (.obj vp) →
        ∃ ps, getKey vp "params" = some (.obj ps) ∧
          getKey ps "filename" = some (.str (resolve_video ov preset))) := by
  refine ⟨?_, ?_, ?_, ?_⟩
  · intro s hs hne
    subst hs
    simp [resolve_video, hne]
  · intro hovn
    subst hovn
    rfl
  · intro hs
    subst hs
    rfl
  · obtain ⟨preset2, s1, s2, hp2, h1, h2, h3⟩ := set_motion_settings_some_elim _ _ _ _ h
    rw [hp] at hp2
    injection hp2 with hpe
    subst hpe
    obtain ⟨a1, b1, hfa1, hfb1, hrest1⟩ := updateNodeO_some_spec _ _ _ _ h1
    rw [hf] at hfa1
    injection hfa1 with ha1
    subst ha1
    obtain ⟨hself1, _⟩ := hrest1 (apply_video_node_id _ _ _ hfb1)
    obtain ⟨a2, b2, hfa2, hfb2, hrest2⟩ := updateNodeO_some_spec _ _ _ _ h2
    obtain ⟨_, hoth2⟩ := hrest2 (apply_controlnet_node_id _ _ _ hfb2)
    obtain ⟨a3, b3, hfa3, hfb3, hrest3⟩ := updateNodeO_some_spec _ _ _ _ h3
    obtain ⟨_, hoth3⟩ := hrest3 (apply_motion_scale_node_id _ _ _ hfb3)
    obtain ⟨ws, hb1, hvid, hvp⟩ := apply_video_node_spec2 _ _ _ hfb1
    refine ⟨ws, ?_, hvid, hvp⟩
    rw [hoth3 _ (by decide), hoth2 _ (by decide), hself1, hb1]

/-- C5 witness: preset up with a non-empty override on a concrete
document whose motion-video node has a videopreview mapping without a
params entry: the video key and the created params.filename both hold
the override. -/
theorem set_motion_video_value_w :
    resolve_video (some "override.mp4") ⟨"motions/tilt_up.mp4", 0.60, 0.55, 1.10⟩
      = "override.mp4" ∧
    (find_node c5_out MOTION_VIDEO_NODE_ID).map (fun nd => getKey nd "widgets_values")
      = some (some (.obj
        [("video", JVal.str "override.mp4"),
         ("videopreview", JVal.obj
           [("paused", JVal.bool false),
            ("params", JVal.obj [("filename", JVal.str "override.mp4")])])])) := by
  obtain ⟨hov, _, _, ws, hfind, hvid, hvp⟩ :=
    set_motion_video_value c5_nodes c5_out "up"
      ⟨"motions/tilt_up.mp4", 0.60, 0.55, 1.10⟩ (some "override.mp4") c5_568 rfl rfl rfl
  exact ⟨hov "override.mp4" rfl (by simp), rfl⟩

/-! ## Claim C8: the output-path setter -/

/-- C8.  For every motion name and quality name and every successful
run of the output-path setter: the templated string equals the date
placeholder followed by the quality, the motion-underscore-quality
suffix and the AD leaf; on each of the preview and final nodes, a
mapping-shaped widget payload gets that string under its
filename-path key, any other payload shape leaves the node exactly
as it was (no failure), and no other node is touched. -/
theorem set_output_pfx_spec (nodes out : List Node) (mo q : String)
    (n53 n205 : Node) (h : set_output_pfx nodes mo q = some out)
    (h53 : find_node nodes VIDEO_PREVIEW_NODE_ID = some n53)
    (h205 : find_node nodes VIDEO_FINAL_NODE_ID = some n205) :
    output_pfx_string mo q
      = "%date:yyyy-MM-dd%/" ++ q ++ "/" ++ (mo ++ "_" ++ q) ++ "/AD" ∧
    (∀ kvs, getKey n53 "widgets_values" = some (.obj kvs) →
      find_node out VIDEO_PREVIEW_NODE_ID = some (setKey n53 "widgets_values"
        (.obj (setKey kvs "filename_prefix" (.str (output_pfx_string mo q)))))) ∧
    ((∀ kvs, getKey n53 "widgets_values" ≠ some (.obj kvs)) →
      find_node out VIDEO_PREVIEW_NODE_ID = some n53) ∧
    (∀ kvs, getKey n205 "widgets_values" = some (.obj kvs) →
      find_node out VIDEO_FINAL_NODE_ID = some (setKey n205 "widgets_values"
        (.obj (setKey kvs "filename_prefix" (.str (output_pfx_string mo q)))))) ∧
    ((∀ kvs, getKey n205 "widgets_values" ≠ some (.obj kvs)) →
      find_node out VIDEO_FINAL_NODE_ID = some n205) ∧
    (∀ j, j ≠ VIDEO_PREVIEW_NODE_ID → j ≠ VIDEO_FINAL_NODE_ID →
      find_node out j = find_node nodes j) := by
  simp only [set_output_pfx, Option.bind_eq_bind, Option.bind_eq_some] at h
  obtain ⟨s1, h1, h2⟩ := h
  obtain ⟨a1, b1, hfa1, hfb1, hrest1⟩ := updateNodeO_some_spec _ _ _ _ h1
  rw [h53] at hfa1
  injection hfa1 with ha1
  subst ha1
  obtain ⟨hself1, hoth1⟩ := hrest1 (apply_pfx_node_id _ _ _ _ hfb1)
  have hf205s1 : find_node s1 VIDEO_FINAL_NODE_ID = some n205 := by
    rw [hoth1 _ (by decide)]
    exact h205
  obtain ⟨a2, b2, hfa2, hfb2, hrest2⟩ := updateNodeO_some_spec _ _ _ _ h2
  rw [hf205s1] at hfa2
  injection hfa2 with ha2
  subst ha2
  obtain ⟨hself2, hoth2⟩ := hrest2 (apply_pfx_node_id _ _ _ _ hfb2)
  have hout53 : find_node out VIDEO_PREVIEW_NODE_ID = some b1 := by
    rw [hoth2 _ (by decide)]
    exact hself1
  refine ⟨rfl, ?_, ?_, ?_, ?_, ?_⟩
  · intro kvs hkvs
    rcases apply_pfx_node_shape mo q n53 b1 hfb1 with ⟨kvs2, hk2, hb⟩ | ⟨hnone, hb⟩
    · have hcomb := hkvs.symm.trans hk2
      injection hcomb with h6
      injection h6 with h7
      subst h7
      rw [hout53, hb]
    · exact absurd hkvs (hnone kvs)
  · intro hno
    rcases apply_pfx_node_shape mo q n53 b1 hfb1 with ⟨kvs2, hk2, hb⟩ | ⟨_, hb⟩
    · exact absurd hk2 (hno kvs2)
    · rw [hout53, hb]
  · intro kvs hkvs
    rcases apply_pfx_node_shape mo q n205 b2 hfb2 with ⟨kvs2, hk2, hb⟩ | ⟨hnone, hb⟩
    · have hcomb := hkvs.symm.trans hk2
      injection hcomb with h6
      injection h6 with h7
      subst h7
      rw [hself2, hb]
    · exact absurd hkvs (hnone kvs)
  · intro hno
    rcases apply_pfx_node_shape mo q n205 b2 hfb2 with ⟨kvs2, hk2, hb⟩ | ⟨_, hb⟩
    · exact absurd hk2 (hno kvs2)
    · rw [hself2, hb]
  · intro j hj53 hj205
    rw [hoth2 _ hj205, hoth1 _ hj53]

/-- C8 witness: motion zoom and quality full on a concrete document:
the mapping-shaped preview node receives the exact templated string and
the widget-less final node is left unchanged without an error. -/
theorem set_output_pfx_spec_w :
    output_pfx_string "zoom" "full" = "%date:yyyy-MM-dd%/full/zoom_full/AD" ∧
    find_node c8_out VIDEO_PREVIEW_NODE_ID
      = some [("id", JVal.num 53),
              ("widgets_values", JVal.obj
                [("fps", JVal.num 8),
                 ("filename_prefix",
                  JVal.str "%date:yyyy-MM-dd%/full/zoom_full/AD")])] ∧
    find_node c8_out VIDEO_FINAL_NODE_ID = some c8_205 := by
  obtain ⟨hstr, hobj, _, _, hskip, _⟩ :=
    set_output_pfx_spec c8_nodes c8_out "zoom" "full" c8_53 c8_205 rfl rfl rfl
  refine ⟨rfl, ?_, ?_⟩
  · have hx := hobj [("fps", JVal.num 8)] rfl
    rw [hx]
    rfl
  · refine hskip ?_
    intro kvs hcontra
    simp [c8_205, getKey] at hcontra

/-! ## Claim C9: the build preserves every other top-level key -/

/-- C9.  For every input document on which the whole build succeeds,
every top-level key other than nodes maps to an unchanged value in the
output document: the build only ever rewrites the nodes entry. -/
theorem build_preserves_toplevel (data out : List (String × JVal))
    (s e m q : String) (mv : Option String)
    (h : build_workflow data s e m q mv = some out) (k : String)
    (hk : k ≠ "nodes") : getKey out k = getKey data k := by
  simp only [build_workflow, Option.bind_eq_bind, Option.bind_eq_some] at h
  obtain ⟨nv, hnv, h⟩ := h
  obtain ⟨ns0, hns0, h⟩ := h
  obtain ⟨ns1, hns1, h⟩ := h
  obtain ⟨ns2, hns2, h⟩ := h
  obtain ⟨ns3, hns3, h⟩ := h
  obtain ⟨ns4, hns4, h⟩ := h
  obtain ⟨ns5, hns5, h⟩ := h
  simp only [Option.some.injEq] at h
  subst h
  exact getKey_setKey_ne data "nodes" k _ hk

/-- C9 witness: a full build on a concrete eleven-node document with
two extra top-level keys; both keys survive unchanged. -/
theorem build_preserves_toplevel_w :
    getKey c9_out "links" = getKey c9_doc "links" ∧
    getKey c9_out "last_node_id" = getKey c9_doc "last_node_id" :=
  ⟨build_preserves_toplevel c9_doc c9_out "s.png" "e.png" "zoom" "sample" none rfl
      "links" (by decide),
   build_preserves_toplevel c9_doc c9_out "s.png" "e.png" "zoom" "sample" none rfl
      "last_node_id" (by decide)⟩
